import Mathlib

/-!
Verification of the dolomite query optimizer against its specification.

This file shallowly embeds the parts of the `datafusion-dolomite` sources that
the checked claims are about:

* `src/datafusion-dolomite-integration/src/conversion/logical.rs` — the bridge
  between dolomite plans and the host (DataFusion) logical-plan representation;
* `src/dolomite/src/rules/limit_push_down.rs` — the three limit rules
  (`RemoveLimitRule`, `PushLimitOverProjectionRule`, `PushLimitToTableScanRule`);
* `src/dolomite/src/cost/mod.rs` — the `Cost` wrapper (floating point; see the
  discussion at the corresponding claim).

Machine integers are modelled as `Nat`/`Int` with explicit two's-complement
casts where the code converts between `usize` and `i64`.  Fallible Rust code
returns `Except Failure`, where `Failure.err` models an error returned to the
caller (`anyhow::bail!`) and `Failure.panic` models a Rust panic
(`panic!`, `Option::unwrap`, out-of-bounds indexing).
-/

namespace Dolomite

/-- Scalar values: the subset of DataFusion `ScalarValue` the conversions
touch (`Int64` literals for limit fetches, booleans for predicates). -/
inductive ScalarValue where
  | int64 (v : Option Int)
  | boolean (v : Option Bool)
deriving DecidableEq

/-- Scalar expressions.  The optimizer treats them as opaque payloads: only
structural equality and cloning are used, so a small inductive with columns,
literals and an equality operator is a faithful carrier. -/
inductive Expr where
  | column (name : String)
  | literal (v : ScalarValue)
  | binaryEq (left : Expr) (right : Expr)
deriving DecidableEq

/-- A schema field: `(name, nullable)`; the concrete arrow type is opaque to
every function the claims concern. -/
structure Field where
  name : String
  nullable : Bool
deriving DecidableEq

/-- Ordered list of typed columns. -/
abbrev Schema := List Field

/-- Join types (DataFusion `JoinType`, the subset needed here). -/
inductive JoinType where
  | inner
  | left
  | full
deriving DecidableEq

/-- DataFusion `JoinConstraint`. -/
inductive JoinConstraint where
  | onCond
  | usingCols
deriving DecidableEq

/-- Dolomite `TableScan` operator payload: table name and optional row
limit.  Modelled from the spec: `Scan(table_name, optional row-limit)`
(the operator module is not among the provided sources). -/
structure TableScan where
  table_name : String
  limit : Option Nat
deriving DecidableEq

/-- `TableScan::new(name)` — a scan with no row limit. -/
def TableScan.new (name : String) : TableScan := ⟨name, none⟩

/-- `TableScan::with_limit(name, limit)`. -/
def TableScan.with_limit (name : String) (l : Nat) : TableScan := ⟨name, some l⟩

/-- Dolomite `Filter` operator payload: predicate plus correlated-column
references.  Modelled from the spec: `Filter(predicate, correlated-refs)`. -/
structure Filter where
  predicate : Expr
  correlated_refs : List String
deriving DecidableEq

/-- `Filter::new(predicate, refs)`. -/
def Filter.new (p : Expr) (refs : List String) : Filter := ⟨p, refs⟩

/-- Dolomite `Projection` operator payload: a list of scalar expressions. -/
structure Projection where
  expr : List Expr
deriving DecidableEq

/-- `Projection::new(exprs)`. -/
def Projection.new (e : List Expr) : Projection := ⟨e⟩

/-- Dolomite `Limit` operator payload: a row count (`usize`, kept in `Nat`;
the `usize`/`i64` casts in the bridge are modelled explicitly below). -/
structure Limit where
  limit : Nat
deriving DecidableEq

/-- `Limit::new(n)`. -/
def Limit.new (n : Nat) : Limit := ⟨n⟩

/-- Dolomite `Join` operator payload: join type and join predicate. -/
structure Join where
  join_type : JoinType
  expr : Expr
deriving DecidableEq

/-- Logical operators of the dolomite plan model. -/
inductive LogicalOperator where
  | LogicalScan (scan : TableScan)
  | LogicalFilter (filter : Filter)
  | LogicalProjection (projection : Projection)
  | LogicalLimit (limit : Limit)
  | LogicalJoin (join : Join)
deriving DecidableEq

/-- Physical operators.  Modelled from the spec (`TableScan`, `HashJoin`);
only their existence matters to the claims (they fall outside the bridge's
supported subset). -/
inductive PhysicalOperator where
  | PhysicalTableScan (scan : TableScan)
  | PhysicalHashJoin (join : Join)
deriving DecidableEq

/-- The dolomite `Operator` sum: logical or physical. -/
inductive Operator where
  | Logical (op : LogicalOperator)
  | Physical (op : PhysicalOperator)
deriving DecidableEq

/-- Logical property of a plan node: the derived output schema. -/
structure LogicalProp where
  schema : Schema
deriving DecidableEq

/-- A dolomite plan node: unique id, operator, lazily computed logical
property, and an ordered list of owned children (Rust `Vec<Arc<PlanNode>>`
modelled as `List`). -/
inductive PlanNode where
  | node (id : Nat) (operator : Operator) (logical_prop : Option LogicalProp)
      (inputs : List PlanNode)

/-- `PlanNode::new(id, operator, inputs)`.  Modelled from the spec: the
logical property is lazily computed, hence empty on construction. -/
def PlanNode.new (id : Nat) (operator : Operator) (inputs : List PlanNode) :
    PlanNode :=
  .node id operator none inputs

/-- The operator of a plan node. -/
def PlanNode.operator : PlanNode → Operator
  | .node _ op _ _ => op

/-- The (optional) logical property of a plan node. -/
def PlanNode.logical_prop : PlanNode → Option LogicalProp
  | .node _ _ p _ => p

/-- The children of a plan node. -/
def PlanNode.inputs : PlanNode → List PlanNode
  | .node _ _ _ inputs => inputs

/-- A plan is a (shared) reference to a root plan node. -/
structure Plan where
  root : PlanNode

/-- `PlanNodeIdGen` — monotonic id generator.  Modelled from the spec:
"IDs are assigned by a monotonic generator owned by the plan"
(the `plan` module is not among the provided sources). -/
abbrev PlanNodeIdGen := Nat

/-- `PlanNodeIdGen::new()`. -/
def PlanNodeIdGen.new : PlanNodeIdGen := 0

/-- `gen_next` returns a fresh id and the advanced generator. -/
def PlanNodeIdGen.gen_next (g : PlanNodeIdGen) : Nat × PlanNodeIdGen :=
  (g, g + 1)

/-- Failure modes of the embedded Rust code: `err` is an error returned to
the caller (`anyhow::bail!`); `panic` is a Rust panic (`panic!`,
`Option::unwrap` on `None`, out-of-bounds indexing). -/
inductive Failure where
  | err (msg : String)
  | panic (msg : String)
deriving DecidableEq

/-- Result type of fallible embedded code (`DolomiteResult`). -/
abbrev DolomiteResult (α : Type) := Except Failure α

/-- `usize as i64`: two's-complement reinterpretation of the low 64 bits. -/
def usize_to_i64 (n : Nat) : Int :=
  if n % 2 ^ 64 < 2 ^ 63 then ((n % 2 ^ 64 : Nat) : Int)
  else ((n % 2 ^ 64 : Nat) : Int) - 2 ^ 64

/-- `i64 as usize`: two's-complement reinterpretation back to unsigned. -/
def i64_to_usize (i : Int) : Nat := (i % 2 ^ 64).toNat

/-! ### The host (DataFusion) logical-plan model

Fields never read nor written by the bridge (the opaque `source` of a table
scan) are omitted; all fields the bridge constructs or inspects are kept. -/

/-- DataFusion `LogicalPlan`, restricted to the variants the bridge code
distinguishes, plus `EmptyRelation` standing for the remaining (unsupported)
variants that fall into the catch-all arm. -/
inductive DFLogicalPlan where
  | Projection (expr : List Expr) (input : DFLogicalPlan) (schema : Schema)
  | Limit (skip : Option Expr) (fetch : Option Expr) (input : DFLogicalPlan)
  | Join (left : DFLogicalPlan) (right : DFLogicalPlan)
      (on_cond : List (String × String)) (filter : Option Expr)
      (join_type : JoinType) (join_constraint : JoinConstraint)
      (schema : Schema) (null_equals_null : Bool)
  | TableScan (table_name : String) (projection : Option (List Nat))
      (projected_schema : Schema) (filters : List Expr) (fetch : Option Nat)
  | Filter (predicate : Expr) (input : DFLogicalPlan)
  | EmptyRelation
deriving DecidableEq

/-- Modelled from the spec: `expr_to_df_join_condition` (its source file is
not provided) turns a join predicate into equi-join column pairs, refusing
predicates that are not column equalities. -/
def expr_to_df_join_condition : Expr → DolomiteResult (List (String × String))
  | .binaryEq (.column l) (.column r) => .ok [(l, r)]
  | _ => .error (.err "unsupported join condition")

mutual

/-- `plan_node_to_df_logical_plan`: convert a dolomite plan node to a
DataFusion logical plan.  Children are converted first (as in the source);
then the operator is dispatched.  `inputs.remove(0)` on an empty vector and
`logical_prop().unwrap()` on `None` are panics.  DataFusion's
`Projection::try_new_with_schema` is host code outside this repository and is
modelled as total. -/
def plan_node_to_df_logical_plan : PlanNode → DolomiteResult DFLogicalPlan
  | .node _ operator logical_prop inputs => do
    let dfInputs ← plan_inputs_to_df_logical_plans inputs
    match operator with
    | .Logical (.LogicalProjection projection) =>
      match dfInputs with
      | [] => .error (.panic "remove called on empty inputs")
      | input0 :: _ =>
        match logical_prop with
        | none => .error (.panic "called unwrap on a None logical_prop")
        | some prop => .ok (.Projection projection.expr input0 prop.schema)
    | .Logical (.LogicalLimit limit) =>
      match dfInputs with
      | [] => .error (.panic "remove called on empty inputs")
      | input0 :: _ =>
        .ok (.Limit none
          (some (.literal (.int64 (some (usize_to_i64 limit.limit))))) input0)
    | .Logical (.LogicalJoin join) =>
      match dfInputs with
      | left :: right :: _ => do
        let on_cond ← expr_to_df_join_condition join.expr
        match logical_prop with
        | none => .error (.panic "called unwrap on a None logical_prop")
        | some prop =>
          .ok (.Join left right on_cond none join.join_type .onCond prop.schema true)
      | _ => .error (.panic "remove called on empty inputs")
    | .Logical (.LogicalScan scan) =>
      match logical_prop with
      | none => .error (.panic "called unwrap on a None logical_prop")
      | some prop =>
        .ok (.TableScan scan.table_name none prop.schema [] scan.limit)
    | _ => .error (.err "Cannot convert plan to data fusion logical plan")

/-- Children conversion: `inputs.iter().map(...).collect::<Result<Vec<_>>>()`,
short-circuiting on the first failure in order. -/
def plan_inputs_to_df_logical_plans :
    List PlanNode → DolomiteResult (List DFLogicalPlan)
  | [] => .ok []
  | p :: ps => do
    let d ← plan_node_to_df_logical_plan p
    let ds ← plan_inputs_to_df_logical_plans ps
    .ok (d :: ds)

end

/-- `df_logical_plan_to_plan_node`: convert a DataFusion logical plan to a
dolomite plan node, threading the id generator (ids are drawn parent-first,
as in the source where `gen_next` runs before the recursive calls).  The
`Limit` arm panics when the fetch is absent (`unwrap`) or is not a literal
`Int64` (`panic!("got complicated limit clause")`). -/
def df_logical_plan_to_plan_node (df_plan : DFLogicalPlan)
    (id_gen : PlanNodeIdGen) : DolomiteResult (PlanNode × PlanNodeIdGen) :=
  let (id, g1) := PlanNodeIdGen.gen_next id_gen
  match df_plan with
  | .Projection expr input _schema => do
    let (child, g2) ← df_logical_plan_to_plan_node input g1
    .ok (PlanNode.new id
      (.Logical (.LogicalProjection (Projection.new expr))) [child], g2)
  | .Limit _skip fetch input =>
    match fetch with
    | none => .error (.panic "called unwrap on a None fetch")
    | some f =>
      match f with
      | .literal (.int64 (some l)) => do
        let (child, g2) ← df_logical_plan_to_plan_node input g1
        .ok (PlanNode.new id
          (.Logical (.LogicalLimit (Limit.new (i64_to_usize l)))) [child], g2)
      | _ => .error (.panic "got complicated limit clause")
  | .TableScan table_name _ _ _ _fetch =>
    .ok (PlanNode.new id
      (.Logical (.LogicalScan (TableScan.new table_name))) [], g1)
  | .Filter predicate input => do
    let (child, g2) ← df_logical_plan_to_plan_node input g1
    .ok (PlanNode.new id
      (.Logical (.LogicalFilter (Filter.new predicate []))) [child], g2)
  | _ => .error (.err "Unsupported datafusion logical plan")

/-- `to_df_logical`: convert a dolomite plan to a DataFusion plan. -/
def to_df_logical (plan : Plan) : DolomiteResult DFLogicalPlan :=
  plan_node_to_df_logical_plan plan.root

/-- `from_df_logical`: convert a DataFusion plan to a dolomite plan with a
fresh id generator. -/
def from_df_logical (df_plan : DFLogicalPlan) : DolomiteResult Plan := do
  let (root, _) ← df_logical_plan_to_plan_node df_plan PlanNodeIdGen.new
  .ok ⟨root⟩

/-! ### Plan shape: operators and structure, ids and cached properties erased

The spec's round-trip law is stated "up to renumbering of plan-node ids":
two plans are compared through this erasure. -/

/-- A plan with node ids and cached logical properties erased: only the
operators and the tree structure remain. -/
inductive OperatorTree where
  | node (operator : Operator) (children : List OperatorTree)

mutual

/-- Erase ids and cached logical properties from a plan node. -/
def PlanNode.strip : PlanNode → OperatorTree
  | .node _ operator _ inputs => .node operator (strip_inputs inputs)

/-- Erase a list of plan nodes. -/
def strip_inputs : List PlanNode → List OperatorTree
  | [] => []
  | p :: ps => PlanNode.strip p :: strip_inputs ps

end

/-- The operator shapes on which the bridge round-trip actually is the
identity up to renumbering: projections and limits of one child and scans of
no children, where the scan carries no row limit (the reverse conversion
drops scan fetches) and the limit count fits in 64 bits (a `usize`
invariant).  Joins are excluded (the reverse conversion of `Join` is
commented out in the source and falls into the unsupported arm), as are
filters (the forward conversion has no `Filter` arm). -/
def round_trip_shape : Operator → List PlanNode → Bool
  | .Logical (.LogicalProjection _), [_] => true
  | .Logical (.LogicalLimit l), [_] => decide (l.limit < 2 ^ 64)
  | .Logical (.LogicalScan s), [] => s.limit == none
  | _, _ => false

mutual

/-- A plan node every node of which is in the round-trip core: supported
shape and a computed logical property (the forward conversion unwraps it). -/
def core_node : PlanNode → Bool
  | .node _ operator logical_prop inputs =>
    logical_prop.isSome && round_trip_shape operator inputs &&
      core_inputs inputs

/-- All nodes of a list of plans are in the round-trip core. -/
def core_inputs : List PlanNode → Bool
  | [] => true
  | p :: ps => core_node p && core_inputs ps

end

/-! ### The rule engine: patterns, bound expressions, limit rules -/

/-- A node of a bound `OptExpression`: either a handle referring into the
memo / heuristic plan, or an inline operator produced by a rule.  Modelled
from the spec: "a lightweight tree referring into the memo (or plan) by
handle, with accessors to retrieve the underlying operator" (the `rules`
module carrying this type is not among the provided sources; the tests in
`limit_push_down.rs` fix its behaviour). -/
inductive OptExpressionNode where
  | expr_handle (handle : Nat)
  | operator_node (operator : Operator)

/-- A bound expression: a node and its bound children. -/
inductive OptExpression where
  | mk (node : OptExpressionNode) (inputs : List OptExpression)

/-- The node of a bound expression. -/
def OptExpression.node : OptExpression → OptExpressionNode
  | .mk n _ => n

/-- The children of a bound expression. -/
def OptExpression.inputs : OptExpression → List OptExpression
  | .mk _ inputs => inputs

/-- The optimizer context as the rules see it: a way to resolve an
expression handle to its operator.  Modelled from the spec: rules only use
the accessor retrieving the underlying operator. -/
structure OptimizerContext where
  expr_at : Nat → Option Operator

/-- `get_operator`: resolve the operator of a bound expression, through the
optimizer context when the node is a handle. -/
def OptExpression.get_operator (e : OptExpression) (ctx : OptimizerContext) :
    DolomiteResult Operator :=
  match e.node with
  | .operator_node op => .ok op
  | .expr_handle h =>
    match ctx.expr_at h with
    | some op => .ok op
    | none => .error (.err "invalid expression handle")

/-- `opt_expr[0]`: Rust `Index<usize>` panics when out of bounds. -/
def OptExpression.index0 (e : OptExpression) : DolomiteResult OptExpression :=
  match e.inputs with
  | [] => .error (.panic "index out of bounds")
  | c :: _ => .ok c

/-- `with_operator(operator, inputs)`: a fresh inline node over the given
children. -/
def OptExpression.with_operator (op : Operator) (inputs : List OptExpression) :
    OptExpression :=
  .mk (.operator_node op) inputs

/-- `clone_with_inputs(operator)`: a fresh inline node that keeps the
receiver's children. -/
def OptExpression.clone_with_inputs (e : OptExpression) (op : Operator) :
    OptExpression :=
  OptExpression.with_operator op e.inputs

/-- `OptExpression::from(operator)`: an inline leaf node. -/
def OptExpression.from_operator (op : Operator) : OptExpression :=
  OptExpression.with_operator op []

/-- The result collector rules write replacement expressions into. -/
structure RuleResult where
  exprs : List OptExpression

/-- `RuleResult::new()`. -/
def RuleResult.new : RuleResult := ⟨[]⟩

/-- `result.add(expr)`: push one replacement expression. -/
def RuleResult.add (r : RuleResult) (e : OptExpression) : RuleResult :=
  ⟨r.exprs ++ [e]⟩

/-- A tree pattern: a predicate on the operator plus child patterns. -/
inductive Pattern where
  | mk (predict : Operator → Bool) (children : List Pattern)

/-- The root predicate of a pattern. -/
def Pattern.predict : Pattern → Operator → Bool
  | .mk p _, op => p op

/-- The child patterns of a pattern. -/
def Pattern.children : Pattern → List Pattern
  | .mk _ cs => cs

/-- Does the operator match `Logical(LogicalLimit(_))`? -/
def is_logical_limit : Operator → Bool
  | .Logical (.LogicalLimit _) => true
  | _ => false

/-- Does the operator match `Logical(LogicalProjection(_))`? -/
def is_logical_projection : Operator → Bool
  | .Logical (.LogicalProjection _) => true
  | _ => false

/-- Does the operator match `Logical(LogicalScan(_))`? -/
def is_logical_scan : Operator → Bool
  | .Logical (.LogicalScan _) => true
  | _ => false

/-- `REMOVE_LIMIT_RULE_PATTERN`: a limit over a limit leaf. -/
def remove_limit_rule_pattern : Pattern :=
  .mk is_logical_limit [.mk is_logical_limit []]

/-- `PUSH_LIMIT_OVER_PROJECTION_PATTERN`: a limit over a projection leaf. -/
def push_limit_over_projection_pattern : Pattern :=
  .mk is_logical_limit [.mk is_logical_projection []]

/-- `PUSH_LIMIT_TO_TABLE_SCAN_PATTERN`: a limit over a scan leaf. -/
def push_limit_to_table_scan_pattern : Pattern :=
  .mk is_logical_limit [.mk is_logical_scan []]

/-- `PushLimitOverProjectionRule::apply`.  Note that, unlike the other two
limit rules, it never inspects the operators it retrieves: it swaps whatever
the root and first child resolve to. -/
def PushLimitOverProjectionRule.apply (opt_expr : OptExpression)
    (ctx : OptimizerContext) (result : RuleResult) :
    DolomiteResult RuleResult := do
  let limit ← opt_expr.get_operator ctx
  let c0 ← opt_expr.index0
  let projection ← c0.get_operator ctx
  let new_limit := c0.clone_with_inputs limit
  let ret := OptExpression.with_operator projection [new_limit]
  .ok (result.add ret)

/-- `RemoveLimitRule::apply`: merge two stacked limits into one with the
minimum count, keeping the inner limit's children; bail on any other pair of
operators. -/
def RemoveLimitRule.apply (input : OptExpression) (ctx : OptimizerContext)
    (result : RuleResult) : DolomiteResult RuleResult := do
  let op1 ← input.get_operator ctx
  let c0 ← input.index0
  let op2 ← c0.get_operator ctx
  match op1, op2 with
  | .Logical (.LogicalLimit limit1), .Logical (.LogicalLimit limit2) =>
    .ok (result.add (c0.clone_with_inputs
      (.Logical (.LogicalLimit (Limit.new (min limit1.limit limit2.limit))))))
  | _, _ => .error (.err "Pattern miss matched")

/-- `PushLimitToTableScanRule::apply`: fuse a limit into the scan below it
(taking the minimum with a pre-existing scan limit); bail on any other pair
of operators. -/
def PushLimitToTableScanRule.apply (input : OptExpression)
    (ctx : OptimizerContext) (result : RuleResult) :
    DolomiteResult RuleResult := do
  let op1 ← input.get_operator ctx
  let c0 ← input.index0
  let op2 ← c0.get_operator ctx
  match op1, op2 with
  | .Logical (.LogicalLimit limit), .Logical (.LogicalScan scan) =>
    let new_limit := (scan.limit.map fun l1 => min l1 limit.limit).getD
      limit.limit
    .ok (result.add (OptExpression.from_operator
      (.Logical (.LogicalScan (TableScan.with_limit scan.table_name
        new_limit)))))
  | _, _ => .error (.err "Pattern miss matched!")

/-! ### Theorems -/

mutual

/-- Number of nodes of a plan (induction measure). -/
def PlanNode.size : PlanNode → Nat
  | .node _ _ _ inputs => 1 + plan_inputs_size inputs

/-- Number of nodes of a list of plans. -/
def plan_inputs_size : List PlanNode → Nat
  | [] => 0
  | p :: ps => PlanNode.size p + plan_inputs_size ps

end

/-- The `usize → i64 → usize` cast round trip is the identity on values
below `2 ^ 64` (every Rust `usize`). -/
theorem i64_to_usize_usize_to_i64 (n : Nat) (h : n < 2 ^ 64) :
    i64_to_usize (usize_to_i64 n) = n := by
  unfold usize_to_i64 i64_to_usize
  rw [Nat.mod_eq_of_lt h]
  split <;> omega

/-- Round-trip helper: on plans in the round-trip core the bridge converts
forward successfully, the reverse conversion succeeds from any id-generator
state, and the result has the same operators and structure. -/
theorem round_trip_core_aux :
    ∀ (n : Nat) (p : PlanNode), PlanNode.size p ≤ n → core_node p = true →
    ∃ df, plan_node_to_df_logical_plan p = .ok df ∧
      ∀ g : PlanNodeIdGen, ∃ (q : PlanNode) (g' : PlanNodeIdGen),
        df_logical_plan_to_plan_node df g = .ok (q, g') ∧
        q.strip = p.strip := by
  intro n
  induction n with
  | zero =>
    intro p hs _
    rcases p with ⟨id, op, prop, inputs⟩
    simp [PlanNode.size] at hs
  | succ n ih =>
    intro p hs hc
    rcases p with ⟨id, op, prop, inputs⟩
    simp only [core_node, Bool.and_eq_true] at hc
    obtain ⟨⟨hprop, hshape⟩, hinputs⟩ := hc
    rcases prop with _ | lp
    · simp at hprop
    unfold round_trip_shape at hshape
    split at hshape
    · -- Projection over one child
      rename_i pr c
      simp only [core_inputs, Bool.and_eq_true] at hinputs
      obtain ⟨hcc, -⟩ := hinputs
      simp only [PlanNode.size, plan_inputs_size] at hs
      obtain ⟨dc, hdc, hrec⟩ := ih c (by omega) hcc
      refine ⟨.Projection pr.expr dc lp.schema, ?_, ?_⟩
      · simp [plan_node_to_df_logical_plan, plan_inputs_to_df_logical_plans,
          hdc, Bind.bind, Except.bind]
      · intro g
        obtain ⟨qc, g2, hq, hstrip⟩ := hrec (g + 1)
        refine ⟨.node g (.Logical (.LogicalProjection ⟨pr.expr⟩)) none [qc],
          g2, ?_, ?_⟩
        · simp [df_logical_plan_to_plan_node, PlanNodeIdGen.gen_next, hq,
            Bind.bind, Except.bind, PlanNode.new, Projection.new]
        · simp [PlanNode.strip, strip_inputs, hstrip]
    · -- Limit over one child
      rename_i l c
      have hlt : l.limit < 2 ^ 64 := of_decide_eq_true hshape
      simp only [core_inputs, Bool.and_eq_true] at hinputs
      obtain ⟨hcc, -⟩ := hinputs
      simp only [PlanNode.size, plan_inputs_size] at hs
      obtain ⟨dc, hdc, hrec⟩ := ih c (by omega) hcc
      refine ⟨.Limit none
        (some (.literal (.int64 (some (usize_to_i64 l.limit))))) dc, ?_, ?_⟩
      · simp [plan_node_to_df_logical_plan, plan_inputs_to_df_logical_plans,
          hdc, Bind.bind, Except.bind]
      · intro g
        obtain ⟨qc, g2, hq, hstrip⟩ := hrec (g + 1)
        refine ⟨.node g (.Logical (.LogicalLimit ⟨l.limit⟩)) none [qc],
          g2, ?_, ?_⟩
        · simp [df_logical_plan_to_plan_node, PlanNodeIdGen.gen_next, hq,
            Bind.bind, Except.bind, PlanNode.new, Limit.new,
            i64_to_usize_usize_to_i64 l.limit hlt]
        · simp [PlanNode.strip, strip_inputs, hstrip]
    · -- Scan of no children and no row limit
      rename_i s
      rcases s with ⟨tn, sl⟩
      simp only [beq_iff_eq] at hshape
      subst hshape
      refine ⟨.TableScan tn none lp.schema [] none, ?_, ?_⟩
      · simp [plan_node_to_df_logical_plan, plan_inputs_to_df_logical_plans,
          Bind.bind, Except.bind]
      · intro g
        exact ⟨.node g (.Logical (.LogicalScan ⟨tn, none⟩)) none [], g + 1,
          rfl, rfl⟩
    · simp at hshape

/-- Counterexample for C1: a single-node plan in the claim's supported
subset — a table scan carrying a row limit — round-trips successfully but
loses its limit, so the resulting operators differ from the original's. -/
theorem bridge_round_trip_cex :
    to_df_logical ⟨.node 0 (.Logical (.LogicalScan ⟨"t1", some 5⟩))
        (some ⟨[]⟩) []⟩ =
      .ok (.TableScan "t1" none [] [] (some 5)) ∧
    from_df_logical (.TableScan "t1" none [] [] (some 5)) =
      .ok ⟨.node 0 (.Logical (.LogicalScan ⟨"t1", none⟩)) none []⟩ ∧
    PlanNode.strip (.node 0 (.Logical (.LogicalScan ⟨"t1", none⟩)) none []) ≠
      PlanNode.strip (.node 0 (.Logical (.LogicalScan ⟨"t1", some 5⟩))
        (some ⟨[]⟩) []) := by
  refine ⟨rfl, rfl, fun hcontra => ?_⟩
  simp [PlanNode.strip, strip_inputs] at hcontra

/-- Claim C1 (amended): on plans whose every node is a projection, a limit
(with count below `2 ^ 64`) or a scan without a row limit, each with a
computed logical property, `from_df_logical ∘ to_df_logical` succeeds and
yields a plan with the same operators and structure, up to node-id
renumbering (and up to the cached logical-property slots, which the reverse
conversion leaves unfilled).  On the full claimed subset the law fails:
scans with row limits lose them (see the counterexample), dolomite filters
are rejected by `to_df_logical`, and host joins are rejected by
`from_df_logical` (its `Join` arm is commented out in the source). -/
theorem bridge_round_trip_on_core (plan : Plan)
    (h : core_node plan.root = true) :
    ∃ df q, to_df_logical plan = .ok df ∧ from_df_logical df = .ok q ∧
      q.root.strip = plan.root.strip := by
  obtain ⟨df, hdf, hrec⟩ :=
    round_trip_core_aux plan.root.size plan.root le_rfl h
  obtain ⟨q, g', hq, hstrip⟩ := hrec PlanNodeIdGen.new
  exact ⟨df, ⟨q⟩, hdf,
    by simp [from_df_logical, hq, Bind.bind, Except.bind], hstrip⟩

/-- Witness for C1 (amended) at `Projection [c1]` over `Limit 7` over
`Scan t1` (the spec's "stable ids after conversion" scenario). -/
theorem bridge_round_trip_on_core_witness :
    ∃ df q, to_df_logical ⟨.node 2
        (.Logical (.LogicalProjection ⟨[.column "c1"]⟩))
        (some ⟨[⟨"c1", false⟩]⟩)
        [.node 1 (.Logical (.LogicalLimit ⟨7⟩)) (some ⟨[⟨"c1", false⟩]⟩)
          [.node 0 (.Logical (.LogicalScan ⟨"t1", none⟩))
            (some ⟨[⟨"c1", false⟩]⟩) []]]⟩ = .ok df ∧
      from_df_logical df = .ok q ∧
      q.root.strip = PlanNode.strip (.node 2
        (.Logical (.LogicalProjection ⟨[.column "c1"]⟩))
        (some ⟨[⟨"c1", false⟩]⟩)
        [.node 1 (.Logical (.LogicalLimit ⟨7⟩)) (some ⟨[⟨"c1", false⟩]⟩)
          [.node 0 (.Logical (.LogicalScan ⟨"t1", none⟩))
            (some ⟨[⟨"c1", false⟩]⟩) []]]) :=
  bridge_round_trip_on_core ⟨.node 2
      (.Logical (.LogicalProjection ⟨[.column "c1"]⟩))
      (some ⟨[⟨"c1", false⟩]⟩)
      [.node 1 (.Logical (.LogicalLimit ⟨7⟩)) (some ⟨[⟨"c1", false⟩]⟩)
        [.node 0 (.Logical (.LogicalScan ⟨"t1", none⟩))
          (some ⟨[⟨"c1", false⟩]⟩) []]]⟩ rfl

/-- Claim C2: on a pair of nested limits with counts `a` (outer) and `b`
(inner), `RemoveLimitRule::apply` appends exactly one replacement
expression: a single limit with count `min a b` over the inner limit's
children. -/
theorem remove_limit_merges_nested_limits
    (input c0 : OptExpression) (ctx : OptimizerContext) (result : RuleResult)
    (a b : Nat)
    (hroot : input.get_operator ctx = .ok (.Logical (.LogicalLimit ⟨a⟩)))
    (hc0 : input.index0 = .ok c0)
    (hchild : c0.get_operator ctx = .ok (.Logical (.LogicalLimit ⟨b⟩))) :
    RemoveLimitRule.apply input ctx result =
      .ok ⟨result.exprs ++ [.mk (.operator_node
        (.Logical (.LogicalLimit (Limit.new (min a b))))) c0.inputs]⟩ := by
  simp [RemoveLimitRule.apply, hroot, hc0, hchild, RuleResult.add,
    OptExpression.clone_with_inputs, OptExpression.with_operator,
    Bind.bind, Except.bind]

/-- Witness for C2 at `Limit 10` over `Limit 5` over a handle. -/
theorem remove_limit_merges_nested_limits_witness :
    RemoveLimitRule.apply
      (.mk (.operator_node (.Logical (.LogicalLimit ⟨10⟩)))
        [.mk (.operator_node (.Logical (.LogicalLimit ⟨5⟩)))
          [.mk (.expr_handle 2) []]])
      ⟨fun _ => none⟩ ⟨[]⟩ =
      .ok ⟨[.mk (.operator_node (.Logical (.LogicalLimit (Limit.new
        (min 10 5))))) [.mk (.expr_handle 2) []]]⟩ :=
  remove_limit_merges_nested_limits
    (.mk (.operator_node (.Logical (.LogicalLimit ⟨10⟩)))
      [.mk (.operator_node (.Logical (.LogicalLimit ⟨5⟩)))
        [.mk (.expr_handle 2) []]])
    (.mk (.operator_node (.Logical (.LogicalLimit ⟨5⟩)))
      [.mk (.expr_handle 2) []])
    ⟨fun _ => none⟩ ⟨[]⟩ 10 5 rfl rfl rfl

/-- Claim C3: on `Limit n` over `Projection p`, the
`PushLimitOverProjectionRule::apply` appends exactly one replacement:
`Projection p` over `Limit n`, the new limit taking over the projection's
original children. -/
theorem push_limit_over_projection_swaps
    (opt_expr c0 : OptExpression) (ctx : OptimizerContext)
    (result : RuleResult) (n : Nat) (p : List Expr)
    (hroot : opt_expr.get_operator ctx = .ok (.Logical (.LogicalLimit ⟨n⟩)))
    (hc0 : opt_expr.index0 = .ok c0)
    (hchild : c0.get_operator ctx =
      .ok (.Logical (.LogicalProjection ⟨p⟩))) :
    PushLimitOverProjectionRule.apply opt_expr ctx result =
      .ok ⟨result.exprs ++ [.mk (.operator_node
          (.Logical (.LogicalProjection ⟨p⟩)))
        [.mk (.operator_node (.Logical (.LogicalLimit ⟨n⟩)))
          c0.inputs]]⟩ := by
  simp [PushLimitOverProjectionRule.apply, hroot, hc0, hchild,
    RuleResult.add, OptExpression.clone_with_inputs,
    OptExpression.with_operator, Bind.bind, Except.bind]

/-- Witness for C3 at `Limit 10` over `Projection [c1]` over a handle. -/
theorem push_limit_over_projection_swaps_witness :
    PushLimitOverProjectionRule.apply
      (.mk (.operator_node (.Logical (.LogicalLimit ⟨10⟩)))
        [.mk (.operator_node (.Logical (.LogicalProjection
            ⟨[.column "c1"]⟩)))
          [.mk (.expr_handle 1) []]])
      ⟨fun _ => none⟩ ⟨[]⟩ =
      .ok ⟨[.mk (.operator_node (.Logical (.LogicalProjection
          ⟨[.column "c1"]⟩)))
        [.mk (.operator_node (.Logical (.LogicalLimit ⟨10⟩)))
          [.mk (.expr_handle 1) []]]]⟩ :=
  push_limit_over_projection_swaps
    (.mk (.operator_node (.Logical (.LogicalLimit ⟨10⟩)))
      [.mk (.operator_node (.Logical (.LogicalProjection ⟨[.column "c1"]⟩)))
        [.mk (.expr_handle 1) []]])
    (.mk (.operator_node (.Logical (.LogicalProjection ⟨[.column "c1"]⟩)))
      [.mk (.expr_handle 1) []])
    ⟨fun _ => none⟩ ⟨[]⟩ 10 [.column "c1"] rfl rfl rfl

/-- Claim C4: on `Limit n` over a scan with no pre-existing row limit,
`PushLimitToTableScanRule::apply` appends exactly one replacement: a single
scan of the same table with row limit `n` and no children (hence no
remaining limit above it). -/
theorem push_limit_to_table_scan_fuses
    (input c0 : OptExpression) (ctx : OptimizerContext) (result : RuleResult)
    (n : Nat) (t : String)
    (hroot : input.get_operator ctx = .ok (.Logical (.LogicalLimit ⟨n⟩)))
    (hc0 : input.index0 = .ok c0)
    (hchild : c0.get_operator ctx = .ok (.Logical (.LogicalScan ⟨t, none⟩))) :
    PushLimitToTableScanRule.apply input ctx result =
      .ok ⟨result.exprs ++ [.mk (.operator_node
        (.Logical (.LogicalScan (TableScan.with_limit t n)))) []]⟩ := by
  simp [PushLimitToTableScanRule.apply, hroot, hc0, hchild, RuleResult.add,
    OptExpression.from_operator, OptExpression.with_operator,
    TableScan.with_limit, Bind.bind, Except.bind]

/-- Witness for C4 at `Limit 5` over `Scan t1`. -/
theorem push_limit_to_table_scan_fuses_witness :
    PushLimitToTableScanRule.apply
      (.mk (.operator_node (.Logical (.LogicalLimit ⟨5⟩)))
        [.mk (.operator_node (.Logical (.LogicalScan ⟨"t1", none⟩))) []])
      ⟨fun _ => none⟩ ⟨[]⟩ =
      .ok ⟨[.mk (.operator_node
        (.Logical (.LogicalScan (TableScan.with_limit "t1" 5)))) []]⟩ :=
  push_limit_to_table_scan_fuses
    (.mk (.operator_node (.Logical (.LogicalLimit ⟨5⟩)))
      [.mk (.operator_node (.Logical (.LogicalScan ⟨"t1", none⟩))) []])
    (.mk (.operator_node (.Logical (.LogicalScan ⟨"t1", none⟩))) [])
    ⟨fun _ => none⟩ ⟨[]⟩ 5 "t1" rfl rfl rfl

/-- Counterexample for C5: `PushLimitOverProjectionRule::apply` invoked on a
scan over a scan — both operators fail the rule's pattern — succeeds and
emits a (nonsensical) replacement instead of returning an error. -/
theorem push_limit_over_projection_no_mismatch_check :
    PushLimitOverProjectionRule.apply
      (.mk (.operator_node (.Logical (.LogicalScan ⟨"t1", none⟩)))
        [.mk (.operator_node (.Logical (.LogicalScan ⟨"t2", none⟩))) []])
      ⟨fun _ => none⟩ ⟨[]⟩ =
      .ok ⟨[.mk (.operator_node (.Logical (.LogicalScan ⟨"t2", none⟩)))
        [.mk (.operator_node (.Logical (.LogicalScan ⟨"t1", none⟩)))
          []]]⟩ := rfl

/-- Claim C5 (amended): `RemoveLimitRule::apply` and
`PushLimitToTableScanRule::apply` return an error when the bound operators
fail their patterns' predicates; `PushLimitOverProjectionRule::apply`
performs no such check (see the counterexample above). -/
theorem limit_rules_reject_pattern_mismatch
    (input c0 : OptExpression) (ctx : OptimizerContext) (result : RuleResult)
    (op1 op2 : Operator)
    (hroot : input.get_operator ctx = .ok op1)
    (hc0 : input.index0 = .ok c0)
    (hchild : c0.get_operator ctx = .ok op2) :
    (¬ (is_logical_limit op1 = true ∧ is_logical_limit op2 = true) →
      RemoveLimitRule.apply input ctx result =
        .error (.err "Pattern miss matched")) ∧
    (¬ (is_logical_limit op1 = true ∧ is_logical_scan op2 = true) →
      PushLimitToTableScanRule.apply input ctx result =
        .error (.err "Pattern miss matched!")) := by
  constructor
  · intro h
    simp only [RemoveLimitRule.apply, hroot, hc0, hchild, Bind.bind,
      Except.bind]
    split
    · simp_all [is_logical_limit]
    · rfl
  · intro h
    simp only [PushLimitToTableScanRule.apply, hroot, hc0, hchild, Bind.bind,
      Except.bind]
    split
    · simp_all [is_logical_limit, is_logical_scan]
    · rfl

/-- Witness for C5 (amended), at a projection over a scan for
`RemoveLimitRule` and a limit over a projection for
`PushLimitToTableScanRule`. -/
theorem limit_rules_reject_pattern_mismatch_witness :
    RemoveLimitRule.apply
      (.mk (.operator_node (.Logical (.LogicalProjection ⟨[]⟩)))
        [.mk (.operator_node (.Logical (.LogicalScan ⟨"t1", none⟩))) []])
      ⟨fun _ => none⟩ ⟨[]⟩ = .error (.err "Pattern miss matched") ∧
    PushLimitToTableScanRule.apply
      (.mk (.operator_node (.Logical (.LogicalProjection ⟨[]⟩)))
        [.mk (.operator_node (.Logical (.LogicalScan ⟨"t1", none⟩))) []])
      ⟨fun _ => none⟩ ⟨[]⟩ = .error (.err "Pattern miss matched!") := by
  have h := limit_rules_reject_pattern_mismatch
    (.mk (.operator_node (.Logical (.LogicalProjection ⟨[]⟩)))
      [.mk (.operator_node (.Logical (.LogicalScan ⟨"t1", none⟩))) []])
    (.mk (.operator_node (.Logical (.LogicalScan ⟨"t1", none⟩))) [])
    ⟨fun _ => none⟩ ⟨[]⟩
    (.Logical (.LogicalProjection ⟨[]⟩))
    (.Logical (.LogicalScan ⟨"t1", none⟩)) rfl rfl rfl
  exact ⟨h.1 (by simp [is_logical_limit]), h.2 (by simp [is_logical_limit])⟩

/-- Claim C8: whenever one of the three limit rules' `apply` succeeds, its
only effect is to append exactly one expression to the result collector (the
bound expression and the context are read-only throughout). -/
theorem limit_rules_append_exactly_one :
    (∀ (e : OptExpression) (ctx : OptimizerContext)
      (result result' : RuleResult),
      RemoveLimitRule.apply e ctx result = .ok result' →
      ∃ x, result'.exprs = result.exprs ++ [x]) ∧
    (∀ (e : OptExpression) (ctx : OptimizerContext)
      (result result' : RuleResult),
      PushLimitOverProjectionRule.apply e ctx result = .ok result' →
      ∃ x, result'.exprs = result.exprs ++ [x]) ∧
    (∀ (e : OptExpression) (ctx : OptimizerContext)
      (result result' : RuleResult),
      PushLimitToTableScanRule.apply e ctx result = .ok result' →
      ∃ x, result'.exprs = result.exprs ++ [x]) := by
  refine ⟨?_, ?_, ?_⟩ <;>
  · intro e ctx result result' h
    simp only [RemoveLimitRule.apply, PushLimitOverProjectionRule.apply,
      PushLimitToTableScanRule.apply, Bind.bind, Except.bind] at h
    repeat' split at h
    all_goals first
      | (cases h; exact ⟨_, rfl⟩)
      | exact absurd h (by simp)

/-- Witness for C8: each conjunct applied at a concrete input on which its
rule genuinely succeeds — a limit merge for `RemoveLimitRule`, a swap for
`PushLimitOverProjectionRule`, and a scan fuse for
`PushLimitToTableScanRule` — each success hypothesis discharged by `rfl`
against the rule's actual output. -/
theorem limit_rules_append_exactly_one_witness :
    (∃ x, ([.mk (.operator_node (.Logical (.LogicalLimit ⟨5⟩)))
        [.mk (.expr_handle 2) []]] : List OptExpression) = [] ++ [x]) ∧
    (∃ x, ([.mk (.operator_node
          (.Logical (.LogicalProjection ⟨[.column "c1"]⟩)))
        [.mk (.operator_node (.Logical (.LogicalLimit ⟨10⟩)))
          [.mk (.expr_handle 1) []]]] : List OptExpression) = [] ++ [x]) ∧
    (∃ x, ([.mk (.operator_node
        (.Logical (.LogicalScan ⟨"t1", some 5⟩))) []] :
        List OptExpression) = [] ++ [x]) :=
  ⟨limit_rules_append_exactly_one.1
      (.mk (.operator_node (.Logical (.LogicalLimit ⟨10⟩)))
        [.mk (.operator_node (.Logical (.LogicalLimit ⟨5⟩)))
          [.mk (.expr_handle 2) []]])
      ⟨fun _ => none⟩ ⟨[]⟩
      ⟨[.mk (.operator_node (.Logical (.LogicalLimit ⟨5⟩)))
        [.mk (.expr_handle 2) []]]⟩ rfl,
    limit_rules_append_exactly_one.2.1
      (.mk (.operator_node (.Logical (.LogicalLimit ⟨10⟩)))
        [.mk (.operator_node
            (.Logical (.LogicalProjection ⟨[.column "c1"]⟩)))
          [.mk (.expr_handle 1) []]])
      ⟨fun _ => none⟩ ⟨[]⟩
      ⟨[.mk (.operator_node
          (.Logical (.LogicalProjection ⟨[.column "c1"]⟩)))
        [.mk (.operator_node (.Logical (.LogicalLimit ⟨10⟩)))
          [.mk (.expr_handle 1) []]]]⟩ rfl,
    limit_rules_append_exactly_one.2.2
      (.mk (.operator_node (.Logical (.LogicalLimit ⟨5⟩)))
        [.mk (.operator_node (.Logical (.LogicalScan ⟨"t1", none⟩))) []])
      ⟨fun _ => none⟩ ⟨[]⟩
      ⟨[.mk (.operator_node
        (.Logical (.LogicalScan ⟨"t1", some 5⟩))) []]⟩ rfl⟩

/-- Claim C10: converting a host `TableScan` to a dolomite node yields a
scan carrying only the table name — any fetch on the host scan is
discarded, so the dolomite scan has no row limit. -/
theorem from_df_table_scan_drops_fetch (t : String)
    (proj : Option (List Nat)) (schema : Schema) (filters : List Expr)
    (fetch : Option Nat) (g : PlanNodeIdGen) :
    df_logical_plan_to_plan_node (.TableScan t proj schema filters fetch) g =
      .ok (.node g (.Logical (.LogicalScan ⟨t, none⟩)) none [], g + 1) := rfl

/-- Counterexample for C6: a host limit whose fetch is a column reference
(not a literal integer) makes `from_df_logical` panic with
"got complicated limit clause" — it does not return a conversion error to
the caller. -/
theorem from_df_non_literal_fetch_panics_cex :
    from_df_logical (.Limit none (some (.column "c1"))
        (.TableScan "t1" none [] [] none)) =
      .error (.panic "got complicated limit clause") ∧
    ∀ msg, from_df_logical (.Limit none (some (.column "c1"))
        (.TableScan "t1" none [] [] none)) ≠ .error (.err msg) := by
  have key : from_df_logical (.Limit none (some (.column "c1"))
      (.TableScan "t1" none [] [] none)) =
      .error (.panic "got complicated limit clause") := rfl
  refine ⟨key, fun msg h => ?_⟩
  rw [key] at h
  exact Failure.noConfusion (Except.error.inj h)

/-- Claim C6 (amended): on any host limit whose fetch is not a literal
`Int64` integer, `from_df_logical` does not succeed — but it fails by
panicking (modelled as `Failure.panic`), not by returning a conversion
error to the caller. -/
theorem from_df_non_literal_fetch_panics (skip : Option Expr)
    (fetch : Option Expr) (input : DFLogicalPlan)
    (h : ∀ l : Int, fetch ≠ some (.literal (.int64 (some l)))) :
    ∃ msg, from_df_logical (.Limit skip fetch input) =
      .error (.panic msg) := by
  rcases fetch with _ | f
  · exact ⟨"called unwrap on a None fetch", rfl⟩
  · rcases f with name | v | ⟨fl, fr⟩
    · exact ⟨"got complicated limit clause", rfl⟩
    · rcases v with iv | bv
      · rcases iv with _ | l
        · exact ⟨"got complicated limit clause", rfl⟩
        · exact absurd rfl (h l)
      · exact ⟨"got complicated limit clause", rfl⟩
    · exact ⟨"got complicated limit clause", rfl⟩

/-- Witness for C6 (amended) at a fetch that is a boolean literal. -/
theorem from_df_non_literal_fetch_panics_witness :
    ∃ msg, from_df_logical (.Limit none
      (some (.literal (.boolean (some true))))
      (.TableScan "t1" none [] [] none)) = .error (.panic msg) :=
  from_df_non_literal_fetch_panics none
    (some (.literal (.boolean (some true))))
    (.TableScan "t1" none [] [] none) (fun l h => by cases h)

/-- Is a dolomite operator in the subset `to_df_logical` can convert
(the match arms of `plan_node_to_df_logical_plan`)? -/
def df_convertible_operator : Operator → Bool
  | .Logical (.LogicalProjection _) => true
  | .Logical (.LogicalLimit _) => true
  | .Logical (.LogicalJoin _) => true
  | .Logical (.LogicalScan _) => true
  | _ => false

/-- Is a host plan in the subset `from_df_logical` can convert
(the match arms of `df_logical_plan_to_plan_node`)? -/
def from_df_supported : DFLogicalPlan → Bool
  | .Projection _ _ _ => true
  | .Limit _ _ _ => true
  | .TableScan _ _ _ _ _ => true
  | .Filter _ _ => true
  | _ => false

/-- Claim C7: both conversion directions reject nodes outside their
supported subsets with a returned error: `plan_node_to_df_logical_plan`
errors on any dolomite operator other than Projection, Limit, Join or Scan
(once its children converted), and `df_logical_plan_to_plan_node` errors on
any host variant other than Projection, Limit, TableScan or Filter. -/
theorem conversions_reject_unsupported :
    (∀ (id : Nat) (op : Operator) (prop : Option LogicalProp)
      (inputs : List PlanNode) (ds : List DFLogicalPlan),
      df_convertible_operator op = false →
      plan_inputs_to_df_logical_plans inputs = .ok ds →
      plan_node_to_df_logical_plan (.node id op prop inputs) =
        .error (.err "Cannot convert plan to data fusion logical plan")) ∧
    (∀ (df : DFLogicalPlan) (g : PlanNodeIdGen),
      from_df_supported df = false →
      df_logical_plan_to_plan_node df g =
        .error (.err "Unsupported datafusion logical plan")) := by
  constructor
  · intro id op prop inputs ds hop hin
    simp only [plan_node_to_df_logical_plan, hin, Bind.bind, Except.bind]
    rcases op with lop | pop
    · cases lop <;> simp_all [df_convertible_operator]
    · rfl
  · intro df g hdf
    cases df <;> simp_all [from_df_supported] <;> rfl

/-- Witness for C7 at a dolomite `Filter` leaf and at a host
`EmptyRelation`. -/
theorem conversions_reject_unsupported_witness :
    plan_node_to_df_logical_plan
      (.node 0 (.Logical (.LogicalFilter ⟨.column "c1", []⟩)) none []) =
      .error (.err "Cannot convert plan to data fusion logical plan") ∧
    df_logical_plan_to_plan_node .EmptyRelation 0 =
      .error (.err "Unsupported datafusion logical plan") :=
  ⟨conversions_reject_unsupported.1 0
      (.Logical (.LogicalFilter ⟨.column "c1", []⟩)) none [] [] rfl rfl,
    conversions_reject_unsupported.2 .EmptyRelation 0 rfl⟩

end Dolomite
